import Mathlib

/-
Verification development for the portfolio tracker repository
(early_editions/portfolio_tracker_3.py, web variant, and
early_editions/portfolio_tracker_Tk_fails.py, desktop variant).

Conventions of the shallow embedding:
* Python floats are modelled as rationals (ℚ).
* Timestamps are integers (seconds); `timedelta(minutes=5)` is 300.
* The external price provider (yfinance one-day history) is an abstract
  function `String → Option ℚ`; `none` models both an empty history and a
  raised exception, since the code treats both identically (return None,
  no cache write).
* Python dicts keyed by ticker are association lists `List (String × α)`;
  dict assignment is `assocUpdate`, which overwrites the first binding of
  the key or appends a fresh one.
* `save_data` (a full-file JSON rewrite) is modelled by a write counter in
  the manager state: each call to `save_data` bumps `saveCount`.
* The manager's `self.portfolio` list is the `positions` field below.
-/

/-- A stored position, as held in `self.portfolio` and the JSON file. -/
structure Position where
  id : Nat
  description : String
  ticker : String
  quantity : ℚ
  purchase_price : ℚ
  fees : ℚ
  date_added : String
deriving DecidableEq

/-- The data submitted to `add_position` / `edit_position`
(after the `float(...)` conversions of the handlers succeeded). -/
structure PositionData where
  description : String
  ticker : String
  quantity : ℚ
  purchase_price : ℚ
  fees : ℚ
deriving DecidableEq

/-- The two ticker-keyed dicts `self.price_cache` and `self.cache_timestamp`. -/
structure CacheState where
  price_cache : List (String × ℚ)
  cache_timestamp : List (String × Int)
deriving DecidableEq

/-- Python dict assignment `d[k] = v` on an association list: replace the
first binding of `k`, or append a fresh binding. -/
def assocUpdate {α : Type} (k : String) (v : α) : List (String × α) → List (String × α)
  | [] => [(k, v)]
  | (k', v') :: rest => if k' = k then (k, v) :: rest else (k', v') :: assocUpdate k v rest

/-- Python's `str.upper()` on the character list of a string (tickers are
ASCII symbols). -/
def pyUpper (s : String) : String :=
  String.mk (List.map Char.toUpper (String.toList s))

/-- Python's `str.strip()`: drop whitespace from both ends. -/
def pyStrip (s : String) : String :=
  String.mk (List.reverse (List.dropWhile Char.isWhitespace
    (List.reverse (List.dropWhile Char.isWhitespace (String.toList s)))))

/-- The cache check of `get_current_price`: the ticker must be present in
both dicts and its entry younger than 5 minutes (`now - ts < 300` seconds,
strict, exactly as `now - self.cache_timestamp[ticker] < timedelta(minutes=5)`). -/
def cacheLookupFresh (st : CacheState) (now : Int) (t : String) : Option ℚ :=
  match List.lookup t (CacheState.price_cache st), List.lookup t (CacheState.cache_timestamp st) with
  | some p, some ts => if now - ts < 300 then some p else none
  | _, _ => none

/-- `get_current_price` of both variants.  Returns the price (or `none`),
the cache state after the call, and whether the external provider was
queried.  On a fresh cache hit the cached price is returned unqueried; on a
miss or stale entry the provider is queried once; a successful query is
stored in both dicts keyed by ticker with the current timestamp; a failed
query (`none`) writes nothing. -/
def get_current_price (provider : String → Option ℚ) (now : Int)
    (st : CacheState) (t : String) : Option ℚ × CacheState × Bool :=
  match cacheLookupFresh st now t with
  | some p => (some p, st, false)
  | none =>
    match provider t with
    | some p =>
      (some p,
       ⟨assocUpdate t p (CacheState.price_cache st),
        assocUpdate t now (CacheState.cache_timestamp st)⟩,
       true)
    | none => (none, st, true)

/-- One row of the data built by `get_portfolio_data` for a single position. -/
structure RowData where
  id : Nat
  description : String
  ticker : String
  quantity : ℚ
  purchase_price : ℚ
  total_cost : ℚ
  fees : ℚ
  current_price : Option ℚ
  current_value : Option ℚ
  pl : Option ℚ
  pl_percent : Option ℚ
  date_added : String
deriving DecidableEq

/-- The body of the `for position in self.portfolio` loop of
`get_portfolio_data`, for one position: compute `total_cost`, fetch the
current price, and fill the per-position record.  `pl_percent` is
`(pl / total_cost) * 100 if total_cost > 0 else 0`; when the price does not
resolve, `current_value`, `pl` and `pl_percent` are `None`. -/
def processPosition (provider : String → Option ℚ) (now : Int)
    (st : CacheState) (pos : Position) : RowData × CacheState :=
  let total_cost := Position.quantity pos * Position.purchase_price pos + Position.fees pos
  let gp := get_current_price provider now st (Position.ticker pos)
  match gp.1 with
  | some price =>
    let current_value := Position.quantity pos * price
    let pl := current_value - total_cost
    let pl_percent := if 0 < total_cost then pl / total_cost * 100 else 0
    (⟨Position.id pos, Position.description pos, Position.ticker pos,
      Position.quantity pos, Position.purchase_price pos, total_cost,
      Position.fees pos, some price, some current_value, some pl,
      some pl_percent, Position.date_added pos⟩, gp.2.1)
  | none =>
    (⟨Position.id pos, Position.description pos, Position.ticker pos,
      Position.quantity pos, Position.purchase_price pos, total_cost,
      Position.fees pos, none, none, none, none, Position.date_added pos⟩, gp.2.1)

/-- The loop of `get_portfolio_data`, threading the cache state and the two
accumulators `total_investment` and `total_current_value`.  `total_cost`
is added to the investment total for every position; the current value is
added only when the price resolved. -/
def portfolioLoop (provider : String → Option ℚ) (now : Int) :
    List Position → CacheState → ℚ → ℚ → List RowData × ℚ × ℚ × CacheState
  | [], st, ti, tcv => ([], ti, tcv, st)
  | pos :: rest, st, ti, tcv =>
    let pr := processPosition provider now st pos
    let tcv' := match RowData.current_value pr.1 with
      | some cv => tcv + cv
      | none => tcv
    let r := portfolioLoop provider now rest pr.2 (ti + RowData.total_cost pr.1) tcv'
    (pr.1 :: r.1, r.2)

/-- The `summary` dict returned by `get_portfolio_data`. -/
structure Summary where
  total_investment : ℚ
  total_current_value : ℚ
  total_pl : ℚ
  total_pl_percent : ℚ
deriving DecidableEq

/-- `get_portfolio_data` of the web variant: the per-position rows, the
summary, and the cache state after all price fetches.  Note the guard on
the aggregate: `total_pl = total_current_value - total_investment if
total_current_value > 0 else 0`, and `total_pl_percent` divides by
`total_investment` only when it is positive. -/
def get_portfolio_data (provider : String → Option ℚ) (now : Int)
    (st : CacheState) (positions : List Position) :
    List RowData × Summary × CacheState :=
  let r := portfolioLoop provider now positions st 0 0
  let ti := r.2.1
  let tcv := r.2.2.1
  let total_pl := if 0 < tcv then tcv - ti else 0
  let total_pl_percent := if 0 < ti then total_pl / ti * 100 else 0
  (r.1, ⟨ti, tcv, total_pl, total_pl_percent⟩, r.2.2.2)

/-- The price each position resolves to when the loop of
`get_portfolio_data` runs over the list, threading the cache exactly as the
code does (`none` = unresolvable at that point of the loop). -/
def resolvedPrices (provider : String → Option ℚ) (now : Int) :
    CacheState → List Position → List (Option ℚ)
  | _, [] => []
  | st, pos :: rest =>
    let gp := get_current_price provider now st (Position.ticker pos)
    gp.1 :: resolvedPrices provider now gp.2.1 rest

/-- The web `PortfolioManager` state: the position list (`self.portfolio`
in the source), the price cache, and a counter of `save_data` calls
(each call is one full-file JSON write). -/
structure WebState where
  positions : List Position
  cache : CacheState
  saveCount : Nat
deriving DecidableEq

/-- `add_position` of the web variant: validate the ticker by fetching its
price (uppercased); on failure return an error and touch nothing; on
success append the new position with `id = len(self.portfolio) + 1` and the
current date, then save.  No bound on quantity, purchase price or fees is
checked here. -/
def add_position (provider : String → Option ℚ) (now : Int) (dateStr : String)
    (st : WebState) (pd : PositionData) : (Bool × String) × WebState :=
  let gp := get_current_price provider now (WebState.cache st)
      (pyUpper (PositionData.ticker pd))
  match gp.1 with
  | none =>
    ((false, "Could not fetch data for ticker"),
     ⟨WebState.positions st, gp.2.1, WebState.saveCount st⟩)
  | some _ =>
    let pos : Position :=
      ⟨List.length (WebState.positions st) + 1, PositionData.description pd,
       pyUpper (PositionData.ticker pd), PositionData.quantity pd,
       PositionData.purchase_price pd, PositionData.fees pd, dateStr⟩
    ((true, "Position added successfully"),
     ⟨WebState.positions st ++ [pos], gp.2.1, WebState.saveCount st + 1⟩)

/-- Outcome of the `edit_position` scan over `self.portfolio`. -/
structure EditResult where
  ok : Bool
  message : String
  positions : List Position
  cache : CacheState
  saved : Bool
deriving DecidableEq

/-- The `for i, position in enumerate(self.portfolio)` loop of the web
`edit_position`: find the first position whose id matches; if the submitted
ticker (uppercased) differs from the stored one, validate it by a price
fetch and fail without touching the list when it does not resolve;
otherwise replace description, ticker, quantity, purchase price and fees in
place (`position.update` keeps `id` and `date_added`) and save. -/
def edit_position_aux (provider : String → Option ℚ) (now : Int)
    (cache : CacheState) (pid : Nat) (pd : PositionData) :
    List Position → EditResult
  | [] => ⟨false, "Position not found", [], cache, false⟩
  | pos :: rest =>
    if Position.id pos = pid then
      let newTicker := pyUpper (PositionData.ticker pd)
      if newTicker ≠ Position.ticker pos then
        let gp := get_current_price provider now cache newTicker
        match gp.1 with
        | none => ⟨false, "Could not fetch data for ticker", pos :: rest, gp.2.1, false⟩
        | some _ =>
          ⟨true, "Position updated successfully",
           ⟨Position.id pos, PositionData.description pd, newTicker,
            PositionData.quantity pd, PositionData.purchase_price pd,
            PositionData.fees pd, Position.date_added pos⟩ :: rest,
           gp.2.1, true⟩
      else
        ⟨true, "Position updated successfully",
         ⟨Position.id pos, PositionData.description pd, newTicker,
          PositionData.quantity pd, PositionData.purchase_price pd,
          PositionData.fees pd, Position.date_added pos⟩ :: rest,
         cache, true⟩
    else
      let r := edit_position_aux provider now cache pid pd rest
      ⟨EditResult.ok r, EditResult.message r, pos :: EditResult.positions r,
       EditResult.cache r, EditResult.saved r⟩

/-- `edit_position` of the web variant, lifted to the manager state. -/
def edit_position (provider : String → Option ℚ) (now : Int)
    (st : WebState) (pid : Nat) (pd : PositionData) : (Bool × String) × WebState :=
  let r := edit_position_aux provider now (WebState.cache st) pid pd (WebState.positions st)
  ((EditResult.ok r, EditResult.message r),
   ⟨EditResult.positions r, EditResult.cache r,
    WebState.saveCount st + (if EditResult.saved r then 1 else 0)⟩)

/-- `PositionDialog.ok_clicked` of the desktop variant (its validation
logic, with the two `float(...)` parses assumed successful): strip the
description, strip and uppercase the ticker, reject an empty description or
ticker, a non-positive quantity or purchase price, or negative fees;
on success the dialog result carries the cleaned fields. -/
def ok_clicked (description ticker : String) (quantity purchase_price fees : ℚ) :
    Option PositionData :=
  let d := pyStrip description
  let t := pyUpper (pyStrip ticker)
  if d = "" then none
  else if t = "" then none
  else if quantity ≤ 0 then none
  else if purchase_price ≤ 0 then none
  else if fees < 0 then none
  else some ⟨d, t, quantity, purchase_price, fees⟩

/-- A CSV cell of the web export: either a numeric value or the literal
string `N/A`. -/
inductive Cell where
  | num : ℚ → Cell
  | na : Cell
deriving DecidableEq

/-- Python truthiness applied to an optional float, as in
`position[k] if position[k] else 'N/A'`: `None` and `0.0` are falsy, so
both render as `N/A`. -/
def truthyCell : Option ℚ → Cell
  | none => Cell.na
  | some v => if v = 0 then Cell.na else Cell.num v

/-- The four value-dependent cells of one row of the web CSV export
(the other cells — description, ticker, quantity, purchase price, total
cost, fees, date — are always written literally). -/
structure CsvRow where
  current_price_cell : Cell
  current_value_cell : Cell
  pl_cell : Cell
  pl_percent_cell : Cell
deriving DecidableEq

/-- The row written by `export_data` of the web variant for one entry of
`portfolio_data`: each of the four computed cells goes through Python
truthiness (`x if x else 'N/A'`). -/
def export_data_row (row : RowData) : CsvRow :=
  ⟨truthyCell (RowData.current_price row),
   truthyCell (RowData.current_value row),
   truthyCell (RowData.pl row),
   truthyCell (RowData.pl_percent row)⟩

/-! Concrete fixtures used by witnesses and counterexamples. -/

/-- A provider for which every ticker is unresolvable. -/
def provNone : String → Option ℚ := fun _ => none

/-- A provider quoting 2 for every ticker. -/
def prov2 : String → Option ℚ := fun _ => some 2

/-- A provider quoting 100 for every ticker. -/
def prov100 : String → Option ℚ := fun _ => some 100

/-- A provider quoting 110 for every ticker. -/
def prov110 : String → Option ℚ := fun _ => some 110

/-- The empty cache. -/
def st0 : CacheState := ⟨[], []⟩

/-- One share bought at 100 with 10 of fees. -/
def posU : Position := ⟨1, "u", "AAA", 1, 100, 10, "d0"⟩

/-- One share bought at 100 with no fees. -/
def posB : Position := ⟨1, "b", "AAA", 1, 100, 0, "d0"⟩

/-- A position with negative quantity (reachable: the web `add_position`
performs no bounds validation, and the JSON file is loaded unchecked). -/
def posNeg : Position := ⟨1, "n", "AAA", -1, 1, 0, "d0"⟩

/-- An empty manager state. -/
def wst0 : WebState := ⟨[], st0, 0⟩

/-- A manager state holding only `posU`. -/
def wstU : WebState := ⟨[posU], st0, 0⟩

/-- Submitted data whose ticker uppercases to `AAA`, with a changed quantity. -/
def pdSame : PositionData := ⟨"u", "aaa", 5, 100, 10⟩

/-- Submitted data with a negative quantity. -/
def pdNegQty : PositionData := ⟨"d", "abc", -1, 1, 0⟩

/-- Submitted data with a fresh ticker `BBB`. -/
def pdNew : PositionData := ⟨"d", "bbb", 2, 3, 0⟩

/-! Helper lemmas. -/

theorem lookup_assocUpdate {α : Type} (k : String) (v : α) (l : List (String × α)) :
    List.lookup k (assocUpdate k v l) = some v := by
  induction l with
  | nil => simp [assocUpdate, List.lookup]
  | cons hd tl ih =>
    obtain ⟨k', v'⟩ := hd
    by_cases h : k' = k
    · simp [assocUpdate, h, List.lookup]
    · simp only [assocUpdate, if_neg h, List.lookup]
      have : (k == k') = false := by
        simp [beq_iff_eq]
        exact fun hek => h hek.symm
      simp [this, ih]

theorem processPosition_spec (provider : String → Option ℚ) (now : Int)
    (st : CacheState) (pos : Position) :
    (processPosition provider now st pos).2
      = (get_current_price provider now st (Position.ticker pos)).2.1
    ∧ RowData.total_cost (processPosition provider now st pos).1
      = Position.quantity pos * Position.purchase_price pos + Position.fees pos
    ∧ RowData.current_price (processPosition provider now st pos).1
      = (get_current_price provider now st (Position.ticker pos)).1
    ∧ RowData.current_value (processPosition provider now st pos).1
      = Option.map (fun pr => Position.quantity pos * pr)
          (get_current_price provider now st (Position.ticker pos)).1 := by
  cases h : (get_current_price provider now st (Position.ticker pos)).1 <;>
    simp [processPosition, h]

theorem portfolioLoop_totals (provider : String → Option ℚ) (now : Int) :
    ∀ (ps : List Position) (st : CacheState) (ti tcv : ℚ),
    (portfolioLoop provider now ps st ti tcv).2.1
      = ti + (List.map
          (fun p => Position.quantity p * Position.purchase_price p + Position.fees p) ps).sum
    ∧ (portfolioLoop provider now ps st ti tcv).2.2.1
      = tcv + (List.filterMap
          (fun x => Option.map (fun pr => Position.quantity x.1 * pr) x.2)
          (List.zip ps (resolvedPrices provider now st ps))).sum := by
  intro ps
  induction ps with
  | nil =>
    intro st ti tcv
    simp [portfolioLoop, resolvedPrices]
  | cons pos rest ih =>
    intro st ti tcv
    obtain ⟨hst, htc, hcp, hcv⟩ := processPosition_spec provider now st pos
    cases h : (get_current_price provider now st (Position.ticker pos)).1 with
    | none =>
      have hcv' : RowData.current_value (processPosition provider now st pos).1 = none := by
        rw [hcv, h]; rfl
      obtain ⟨ih1, ih2⟩ := ih (get_current_price provider now st (Position.ticker pos)).2.1
        (ti + RowData.total_cost (processPosition provider now st pos).1) tcv
      constructor
      · simp only [portfolioLoop, hcv', hst]
        rw [ih1, htc]
        simp only [List.map_cons, List.sum_cons]
        ring
      · simp only [portfolioLoop, hcv', hst, ih2]
        simp [resolvedPrices, h]
    | some price =>
      have hcv' : RowData.current_value (processPosition provider now st pos).1
          = some (Position.quantity pos * price) := by
        rw [hcv, h]; rfl
      obtain ⟨ih1, ih2⟩ := ih (get_current_price provider now st (Position.ticker pos)).2.1
        (ti + RowData.total_cost (processPosition provider now st pos).1)
        (tcv + Position.quantity pos * price)
      constructor
      · simp only [portfolioLoop, hcv', hst]
        rw [ih1, htc]
        simp only [List.map_cons, List.sum_cons]
        ring
      · simp only [portfolioLoop, hcv', hst, ih2]
        simp [resolvedPrices, h]
        ring

/-- C2: for every portfolio, `get_portfolio_data` returns
`total_investment` equal to the sum of `quantity * purchase_price + fees`
over all positions, and `total_current_value` equal to the sum of
`quantity * current_price` over exactly the positions whose price resolves
when the loop fetches it; an unresolvable position contributes its cost to
`total_investment` and nothing to `total_current_value`. -/
theorem c2_summary_totals (provider : String → Option ℚ) (now : Int)
    (st : CacheState) (ps : List Position) :
    Summary.total_investment (get_portfolio_data provider now st ps).2.1
      = (List.map
          (fun p => Position.quantity p * Position.purchase_price p + Position.fees p) ps).sum
    ∧ Summary.total_current_value (get_portfolio_data provider now st ps).2.1
      = (List.filterMap
          (fun x => Option.map (fun pr => Position.quantity x.1 * pr) x.2)
          (List.zip ps (resolvedPrices provider now st ps))).sum := by
  obtain ⟨h1, h2⟩ := portfolioLoop_totals provider now ps st 0 0
  simp [get_portfolio_data, h1, h2]

/-- C1 counterexample: with a single position costing 110 whose ticker is
unresolvable, `get_portfolio_data` reports `total_pl = 0`, not
`total_current_value - total_investment = -110`: the aggregate has an extra
special case `if total_current_value > 0 else 0` beyond the
zero-denominator guard of `total_pl_percent`. -/
theorem c1_counterexample :
    Summary.total_pl (get_portfolio_data provNone 0 st0 [posU]).2.1
      ≠ Summary.total_current_value (get_portfolio_data provNone 0 st0 [posU]).2.1
        - Summary.total_investment (get_portfolio_data provNone 0 st0 [posU]).2.1 := by
  norm_num [get_portfolio_data, portfolioLoop, processPosition, get_current_price,
    cacheLookupFresh, provNone, st0, posU]

/-- C1 (amended): the aggregate `total_pl` of `get_portfolio_data` equals
`total_current_value - total_investment` whenever `total_current_value` is
positive, and is 0 otherwise (an extra guard beyond the zero-denominator
guard of `total_pl_percent`; the desktop variant's `update_display` has no
such guard). -/
theorem c1_total_pl_guarded (provider : String → Option ℚ) (now : Int)
    (st : CacheState) (ps : List Position) :
    (0 < Summary.total_current_value (get_portfolio_data provider now st ps).2.1 →
      Summary.total_pl (get_portfolio_data provider now st ps).2.1
        = Summary.total_current_value (get_portfolio_data provider now st ps).2.1
          - Summary.total_investment (get_portfolio_data provider now st ps).2.1)
    ∧ (Summary.total_current_value (get_portfolio_data provider now st ps).2.1 ≤ 0 →
      Summary.total_pl (get_portfolio_data provider now st ps).2.1 = 0) := by
  constructor
  · intro h
    simp only [get_portfolio_data] at h ⊢
    rw [if_pos h]
  · intro h
    simp only [get_portfolio_data] at h ⊢
    rw [if_neg (not_lt.mpr h)]

/-- C1 witness: a concrete portfolio with a resolvable price, where the
guard is not taken and the aggregate difference formula holds. -/
theorem c1_total_pl_guarded_witness :
    Summary.total_pl (get_portfolio_data prov2 0 st0 [posU]).2.1
      = Summary.total_current_value (get_portfolio_data prov2 0 st0 [posU]).2.1
        - Summary.total_investment (get_portfolio_data prov2 0 st0 [posU]).2.1 :=
  (c1_total_pl_guarded prov2 0 st0 [posU]).1 (by
    norm_num [get_portfolio_data, portfolioLoop, processPosition, get_current_price,
      cacheLookupFresh, prov2, st0, posU])

/-- C3 counterexample: a position with quantity -1, purchase price 1 and no
fees (storable, since the web `add_position` checks no bounds and the JSON
file is loaded unchecked) has `total_cost = -1`, which is nonzero; with a
resolvable price of 2 the claimed formula gives `(pl / total_cost) * 100 =
100`, but the code's branch is `total_cost > 0`, so it reports 0. -/
theorem c3_counterexample :
    RowData.current_price (processPosition prov2 0 st0 posNeg).1 = some 2
    ∧ Position.quantity posNeg * Position.purchase_price posNeg + Position.fees posNeg ≠ 0
    ∧ RowData.pl_percent (processPosition prov2 0 st0 posNeg).1
        ≠ some ((Position.quantity posNeg * 2
            - (Position.quantity posNeg * Position.purchase_price posNeg + Position.fees posNeg))
          / (Position.quantity posNeg * Position.purchase_price posNeg + Position.fees posNeg)
          * 100) := by
  refine ⟨by decide, by norm_num [posNeg], ?_⟩
  norm_num [processPosition, get_current_price, cacheLookupFresh, prov2, st0, posNeg]

/-- C3 (amended): for every position with a resolvable price, `pl_percent`
equals `(pl / total_cost) * 100` when `total_cost` is positive (not merely
nonzero), and 0 otherwise — in particular 0 when `total_cost` is 0, and
also 0 when `total_cost` is negative. -/
theorem c3_pl_percent (provider : String → Option ℚ) (now : Int)
    (st : CacheState) (pos : Position) (pr : ℚ)
    (h : RowData.current_price (processPosition provider now st pos).1 = some pr) :
    RowData.pl_percent (processPosition provider now st pos).1
      = some (if 0 < Position.quantity pos * Position.purchase_price pos + Position.fees pos
          then (Position.quantity pos * pr
              - (Position.quantity pos * Position.purchase_price pos + Position.fees pos))
            / (Position.quantity pos * Position.purchase_price pos + Position.fees pos) * 100
          else 0) := by
  obtain ⟨hst, htc, hcp, hcv⟩ := processPosition_spec provider now st pos
  rw [hcp] at h
  simp [processPosition, h]

/-- C3 witness: one share bought at 100 with no fees and a current price of
110 yields a 10 percent gain through the positive branch. -/
theorem c3_pl_percent_witness :
    RowData.pl_percent (processPosition prov110 0 st0 posB).1
      = some (if 0 < Position.quantity posB * Position.purchase_price posB + Position.fees posB
          then (Position.quantity posB * 110
              - (Position.quantity posB * Position.purchase_price posB + Position.fees posB))
            / (Position.quantity posB * Position.purchase_price posB + Position.fees posB) * 100
          else 0) :=
  c3_pl_percent prov110 0 st0 posB 110 (by decide)

/-- C4: whenever the price fetch for the submitted ticker (uppercased)
fails, the web `add_position` returns a failure and leaves the position
list untouched, with no persistence write. -/
theorem c4_add_unresolvable (provider : String → Option ℚ) (now : Int)
    (dateStr : String) (st : WebState) (pd : PositionData)
    (h : (get_current_price provider now (WebState.cache st)
        (pyUpper (PositionData.ticker pd))).1 = none) :
    (add_position provider now dateStr st pd).1.1 = false
    ∧ WebState.positions (add_position provider now dateStr st pd).2 = WebState.positions st
    ∧ WebState.saveCount (add_position provider now dateStr st pd).2
        = WebState.saveCount st := by
  simp [add_position, h]

/-- C4 witness: adding ticker `BBB` against a provider that resolves
nothing fails and leaves the empty store empty and unsaved. -/
theorem c4_add_unresolvable_witness :
    (add_position provNone 0 "d1" wst0 pdNew).1.1 = false
    ∧ WebState.positions (add_position provNone 0 "d1" wst0 pdNew).2 = WebState.positions wst0
    ∧ WebState.saveCount (add_position provNone 0 "d1" wst0 pdNew).2
        = WebState.saveCount wst0 :=
  c4_add_unresolvable provNone 0 "d1" wst0 pdNew (by decide)

/-- C5: when the cache check does not produce a fresh entry (so the
provider is actually consulted) and the provider errors out or returns an
empty result, `get_current_price` returns `None` and both cache dicts are
exactly the state it started from, so a later call for the ticker reaches
the provider again instead of a cached failure. -/
theorem c5_provider_failure (provider : String → Option ℚ) (now : Int)
    (st : CacheState) (t : String)
    (hmiss : cacheLookupFresh st now t = none)
    (hprov : provider t = none) :
    get_current_price provider now st t = (none, st, true) := by
  simp [get_current_price, hmiss, hprov]

/-- C5 witness: a cold cache and an always-failing provider. -/
theorem c5_provider_failure_witness :
    get_current_price provNone 7 st0 "CCC" = (none, st0, true) :=
  c5_provider_failure provNone 7 st0 "CCC" (by decide) (by decide)

/-- C6: first, a ticker present in both cache dicts with a timestamp less
than 5 minutes (300 s) old is answered from the cache with no provider
query and no state change; second, after a call that did query the
provider and succeeded, any call within 5 minutes returns the same price
without querying again — one provider query serves both calls. -/
theorem c6_cache_within_5min :
    (∀ (provider : String → Option ℚ) (now : Int) (st : CacheState)
        (t : String) (p : ℚ) (ts : Int),
      List.lookup t (CacheState.price_cache st) = some p →
      List.lookup t (CacheState.cache_timestamp st) = some ts →
      now - ts < 300 →
      get_current_price provider now st t = (some p, st, false))
    ∧ (∀ (provider provider2 : String → Option ℚ) (now now' : Int)
        (st st1 : CacheState) (t : String) (p : ℚ),
      get_current_price provider now st t = (some p, st1, true) →
      now' - now < 300 →
      get_current_price provider2 now' st1 t = (some p, st1, false)) := by
  constructor
  · intro provider now st t p ts hp hts hfresh
    have hf : cacheLookupFresh st now t = some p := by
      simp [cacheLookupFresh, hp, hts, hfresh]
    simp [get_current_price, hf]
  · intro provider provider2 now now' st st1 t p hcall hlt
    cases hfirst : cacheLookupFresh st now t with
    | some q =>
      simp [get_current_price, hfirst] at hcall
    | none =>
      cases hprov : provider t with
      | none =>
        simp [get_current_price, hfirst, hprov] at hcall
      | some pr =>
        simp only [get_current_price, hfirst, hprov, Prod.mk.injEq,
          Option.some.injEq] at hcall
        obtain ⟨hpq, hst1, -⟩ := hcall
        subst hpq
        subst hst1
        have hf2 : cacheLookupFresh
            ⟨assocUpdate t pr (CacheState.price_cache st),
             assocUpdate t now (CacheState.cache_timestamp st)⟩ now' t = some pr := by
          simp [cacheLookupFresh, lookup_assocUpdate, hlt]
        simp [get_current_price, hf2]

/-- C6 witness: a cache holding `AAA` at 42 fetched at time 0, read again
at time 100, answers 42 without consulting the (failing) provider. -/
theorem c6_cache_within_5min_witness :
    get_current_price provNone 100 ⟨[("AAA", 42)], [("AAA", 0)]⟩ "AAA"
      = (some 42, ⟨[("AAA", 42)], [("AAA", 0)]⟩, false) :=
  c6_cache_within_5min.1 provNone 100 ⟨[("AAA", 42)], [("AAA", 0)]⟩ "AAA" 42 0
    (by decide) (by decide) (by decide)

/-- C7 counterexample: the store holds a position with ticker `AAA`, whose
price is unresolvable (the provider resolves nothing); the edit resubmits
the same ticker (`aaa`, uppercased to `AAA`) with a new quantity.  The web
`edit_position` skips price validation when the ticker is unchanged, so it
reports success and changes the stored position even though the submitted
ticker's price is unresolvable. -/
theorem c7_counterexample :
    (edit_position provNone 0 wstU 1 pdSame).1.1 = true
    ∧ WebState.positions (edit_position provNone 0 wstU 1 pdSame).2
        ≠ WebState.positions wstU := by
  decide

theorem edit_position_aux_unresolvable (provider : String → Option ℚ) (now : Int)
    (cache : CacheState) (pid : Nat) (pd : PositionData) :
    ∀ ps : List Position,
    (∀ pos ∈ ps, Position.id pos = pid →
      pyUpper (PositionData.ticker pd) ≠ Position.ticker pos) →
    (get_current_price provider now cache (pyUpper (PositionData.ticker pd))).1 = none →
    EditResult.ok (edit_position_aux provider now cache pid pd ps) = false
    ∧ EditResult.positions (edit_position_aux provider now cache pid pd ps) = ps
    ∧ EditResult.saved (edit_position_aux provider now cache pid pd ps) = false := by
  intro ps
  induction ps with
  | nil =>
    intro _ _
    simp [edit_position_aux]
  | cons pos rest ih =>
    intro hdiff hprice
    by_cases hid : Position.id pos = pid
    · have hne : pyUpper (PositionData.ticker pd) ≠ Position.ticker pos :=
        hdiff pos (by simp) hid
      simp [edit_position_aux, hid, hne, hprice]
    · obtain ⟨h1, h2, h3⟩ := ih (fun q hq hqid => hdiff q (by simp [hq]) hqid) hprice
      simp [edit_position_aux, hid, h1, h2, h3]

/-- C7 (amended): the web `edit_position` validates the submitted ticker
only when it differs from the stored one.  When every position matching the
id carries a ticker different from the submitted (uppercased) one and that
ticker's price is unresolvable, the edit fails and the store is unchanged
with no persistence write; but an edit resubmitting the unchanged ticker
succeeds without any price fetch (see the counterexample).  The desktop
variant validates unconditionally. -/
theorem c7_edit_unresolvable_changed (provider : String → Option ℚ) (now : Int)
    (st : WebState) (pid : Nat) (pd : PositionData)
    (hdiff : ∀ pos ∈ WebState.positions st, Position.id pos = pid →
      pyUpper (PositionData.ticker pd) ≠ Position.ticker pos)
    (hprice : (get_current_price provider now (WebState.cache st)
      (pyUpper (PositionData.ticker pd))).1 = none) :
    (edit_position provider now st pid pd).1.1 = false
    ∧ WebState.positions (edit_position provider now st pid pd).2 = WebState.positions st
    ∧ WebState.saveCount (edit_position provider now st pid pd).2
        = WebState.saveCount st := by
  obtain ⟨h1, h2, h3⟩ := edit_position_aux_unresolvable provider now (WebState.cache st)
    pid pd (WebState.positions st) hdiff hprice
  simp [edit_position, h1, h2, h3]

/-- C7 witness: editing the stored `AAA` position to the fresh ticker `BBB`
against a provider that resolves nothing fails and leaves the store
untouched. -/
theorem c7_edit_unresolvable_changed_witness :
    (edit_position provNone 0 wstU 1 pdNew).1.1 = false
    ∧ WebState.positions (edit_position provNone 0 wstU 1 pdNew).2
        = WebState.positions wstU
    ∧ WebState.saveCount (edit_position provNone 0 wstU 1 pdNew).2
        = WebState.saveCount wstU :=
  c7_edit_unresolvable_changed provNone 0 wstU 1 pdNew (by decide) (by decide)

/-- C8 counterexample: the web `add_position` performs no bounds
validation: a request with quantity -1 and a resolvable ticker is accepted
and the stored position has quantity -1 < 0. -/
theorem c8_counterexample :
    (add_position prov2 0 "d2" wst0 pdNegQty).1.1 = true
    ∧ List.map Position.quantity
        (WebState.positions (add_position prov2 0 "d2" wst0 pdNegQty).2) = [-1] := by
  decide

/-- C8 (amended): only the desktop dialog enforces the bounds.  Every
dialog result accepted by `ok_clicked` satisfies `quantity > 0`,
`purchase_price > 0` and `fees ≥ 0`, and a request violating any of these
bounds is rejected by the dialog; the web variant's `add_position` /
`edit_position` check no bounds and will store out-of-range values (see the
counterexample). -/
theorem c8_dialog_validation :
    (∀ (d t : String) (q p f : ℚ) (r : PositionData),
      ok_clicked d t q p f = some r →
      0 < PositionData.quantity r ∧ 0 < PositionData.purchase_price r
        ∧ 0 ≤ PositionData.fees r)
    ∧ (∀ (d t : String) (q p f : ℚ),
      q ≤ 0 ∨ p ≤ 0 ∨ f < 0 → ok_clicked d t q p f = none) := by
  constructor
  · intro d t q p f r hr
    dsimp only [ok_clicked] at hr
    split_ifs at hr with h1 h2 h3 h4 h5
    rw [Option.some_inj] at hr
    subst hr
    exact ⟨not_le.mp h3, not_le.mp h4, not_lt.mp h5⟩
  · intro d t q p f h
    dsimp only [ok_clicked]
    split_ifs with h1 h2 h3 h4 h5 <;> try rfl
    rcases h with h | h | h
    · exact absurd h h3
    · exact absurd h h4
    · exact absurd h h5

/-- C8 witness: the dialog accepts description `d`, ticker `ab`, quantity
1, price 2, fees 0, and the accepted record satisfies the bounds. -/
theorem c8_dialog_validation_witness :
    0 < PositionData.quantity (⟨"d", "AB", 1, 2, 0⟩ : PositionData)
    ∧ 0 < PositionData.purchase_price (⟨"d", "AB", 1, 2, 0⟩ : PositionData)
    ∧ 0 ≤ PositionData.fees (⟨"d", "AB", 1, 2, 0⟩ : PositionData) :=
  c8_dialog_validation.1 "d" "ab" 1 2 0 ⟨"d", "AB", 1, 2, 0⟩ (by decide)

theorem truthyCell_na_iff (v : ℚ) : truthyCell (some v) = Cell.na ↔ v = 0 := by
  by_cases h : v = 0 <;> simp [truthyCell, h]

/-- C9 counterexample: one share bought at 100 with no fees, current price
100: the price resolves (`current_price = some 100`) yet the P&L cell of
the web CSV export is the string `N/A`, because `pl` is exactly 0 and the
export tests Python truthiness (`position['pl'] if position['pl'] else
'N/A'`), under which 0.0 is falsy. -/
theorem c9_counterexample :
    RowData.current_price (processPosition prov100 0 st0 posB).1 = some 100
    ∧ CsvRow.pl_cell (export_data_row (processPosition prov100 0 st0 posB).1)
        = Cell.na := by
  constructor
  · decide
  · norm_num [export_data_row, truthyCell, processPosition, get_current_price,
      cacheLookupFresh, prov100, st0, posB]

/-- C9 (amended): in the web CSV export, a position whose price does not
resolve gets `N/A` in all four computed cells; for a position whose price
resolves, each of the four cells is `N/A` exactly when its computed value
equals 0 (Python falsiness), and shows the numeric value otherwise. -/
theorem c9_na_cells (provider : String → Option ℚ) (now : Int)
    (st : CacheState) (pos : Position) :
    (RowData.current_price (processPosition provider now st pos).1 = none →
      export_data_row (processPosition provider now st pos).1
        = ⟨Cell.na, Cell.na, Cell.na, Cell.na⟩)
    ∧ (∀ v : ℚ, RowData.pl (processPosition provider now st pos).1 = some v →
      (CsvRow.pl_cell (export_data_row (processPosition provider now st pos).1)
        = Cell.na ↔ v = 0))
    ∧ (∀ v : ℚ, RowData.current_price (processPosition provider now st pos).1 = some v →
      (CsvRow.current_price_cell (export_data_row (processPosition provider now st pos).1)
        = Cell.na ↔ v = 0))
    ∧ (∀ v : ℚ, RowData.current_value (processPosition provider now st pos).1 = some v →
      (CsvRow.current_value_cell (export_data_row (processPosition provider now st pos).1)
        = Cell.na ↔ v = 0))
    ∧ (∀ v : ℚ, RowData.pl_percent (processPosition provider now st pos).1 = some v →
      (CsvRow.pl_percent_cell (export_data_row (processPosition provider now st pos).1)
        = Cell.na ↔ v = 0)) := by
  refine ⟨?_, ?_, ?_, ?_, ?_⟩
  · intro hnone
    cases h : (get_current_price provider now st (Position.ticker pos)).1 with
    | some price =>
      obtain ⟨-, -, hcp, -⟩ := processPosition_spec provider now st pos
      rw [hcp, h] at hnone
      exact Option.noConfusion hnone
    | none =>
      simp [processPosition, h, export_data_row, truthyCell]
  · intro v hv
    have e : CsvRow.pl_cell (export_data_row (processPosition provider now st pos).1)
        = truthyCell (RowData.pl (processPosition provider now st pos).1) := rfl
    rw [e, hv, truthyCell_na_iff]
  · intro v hv
    have e : CsvRow.current_price_cell
          (export_data_row (processPosition provider now st pos).1)
        = truthyCell (RowData.current_price (processPosition provider now st pos).1) := rfl
    rw [e, hv, truthyCell_na_iff]
  · intro v hv
    have e : CsvRow.current_value_cell
          (export_data_row (processPosition provider now st pos).1)
        = truthyCell (RowData.current_value (processPosition provider now st pos).1) := rfl
    rw [e, hv, truthyCell_na_iff]
  · intro v hv
    have e : CsvRow.pl_percent_cell
          (export_data_row (processPosition provider now st pos).1)
        = truthyCell (RowData.pl_percent (processPosition provider now st pos).1) := rfl
    rw [e, hv, truthyCell_na_iff]

/-- C9 witness: with an unresolvable ticker all four computed cells of the
export row are `N/A`. -/
theorem c9_na_cells_witness :
    export_data_row (processPosition provNone 3 st0 posB).1
      = ⟨Cell.na, Cell.na, Cell.na, Cell.na⟩ :=
  (c9_na_cells provNone 3 st0 posB).1 (by decide)

theorem edit_position_aux_frame (provider : String → Option ℚ) (now : Int)
    (cache : CacheState) (pid : Nat) (pd : PositionData) :
    ∀ ps : List Position,
    ((∀ pos ∈ ps, Position.id pos ≠ pid)
      ∧ EditResult.positions (edit_position_aux provider now cache pid pd ps) = ps)
    ∨ (∃ pre pos post pos',
        ps = pre ++ pos :: post
        ∧ Position.id pos = pid
        ∧ (∀ q ∈ pre, Position.id q ≠ pid)
        ∧ EditResult.positions (edit_position_aux provider now cache pid pd ps)
            = pre ++ pos' :: post
        ∧ Position.id pos' = Position.id pos
        ∧ Position.date_added pos' = Position.date_added pos
        ∧ (pos' = pos
          ∨ (Position.description pos' = PositionData.description pd
            ∧ Position.ticker pos' = pyUpper (PositionData.ticker pd)
            ∧ Position.quantity pos' = PositionData.quantity pd
            ∧ Position.purchase_price pos' = PositionData.purchase_price pd
            ∧ Position.fees pos' = PositionData.fees pd))) := by
  intro ps
  induction ps with
  | nil =>
    left
    exact ⟨by simp, by simp [edit_position_aux]⟩
  | cons pos rest ih =>
    by_cases hid : Position.id pos = pid
    · right
      by_cases hne : pyUpper (PositionData.ticker pd) = Position.ticker pos
      · refine ⟨[], pos, rest,
          ⟨Position.id pos, PositionData.description pd,
           pyUpper (PositionData.ticker pd), PositionData.quantity pd,
           PositionData.purchase_price pd, PositionData.fees pd,
           Position.date_added pos⟩,
          by simp, hid, by simp, ?_, rfl, rfl,
          Or.inr ⟨rfl, rfl, rfl, rfl, rfl⟩⟩
        simp [edit_position_aux, hid, not_not_intro hne]
      · cases hgp : (get_current_price provider now cache
            (pyUpper (PositionData.ticker pd))).1 with
        | none =>
          refine ⟨[], pos, rest, pos, by simp, hid, by simp, ?_, rfl, rfl, Or.inl rfl⟩
          simp [edit_position_aux, hid, hne, hgp]
        | some q =>
          refine ⟨[], pos, rest,
            ⟨Position.id pos, PositionData.description pd,
             pyUpper (PositionData.ticker pd), PositionData.quantity pd,
             PositionData.purchase_price pd, PositionData.fees pd,
             Position.date_added pos⟩,
            by simp, hid, by simp, ?_, rfl, rfl,
            Or.inr ⟨rfl, rfl, rfl, rfl, rfl⟩⟩
          simp [edit_position_aux, hid, hne, hgp]
    · rcases ih with ⟨hall, hres⟩ |
        ⟨pre, pos1, post, pos', hps, hpid, hpre, hres, hidk, hdate, hfields⟩
      · left
        refine ⟨?_, ?_⟩
        · intro q hq
          rcases List.mem_cons.mp hq with hq | hq
          · exact hq ▸ hid
          · exact hall q hq
        · simp [edit_position_aux, hid, hres]
      · right
        refine ⟨pos :: pre, pos1, post, pos', by simp [hps], hpid, ?_,
          ?_, hidk, hdate, hfields⟩
        · intro q hq
          rcases List.mem_cons.mp hq with hq | hq
          · exact hq ▸ hid
          · exact hpre q hq
        · simp [edit_position_aux, hid, hres]

/-- C10: when the web `edit_position` is called, either no stored position
has the id and the list is unchanged, or the list splits around the first
position carrying the id; only that position is replaced — it keeps its
`id` and `date_added`, every position before and after it is unchanged, and
the replacement either equals the old position (failed validation) or
carries exactly the submitted description, uppercased ticker, quantity,
purchase price and fees. -/
theorem c10_edit_frame (provider : String → Option ℚ) (now : Int)
    (st : WebState) (pid : Nat) (pd : PositionData) :
    ((∀ pos ∈ WebState.positions st, Position.id pos ≠ pid)
      ∧ WebState.positions (edit_position provider now st pid pd).2
          = WebState.positions st)
    ∨ (∃ pre pos post pos',
        WebState.positions st = pre ++ pos :: post
        ∧ Position.id pos = pid
        ∧ (∀ q ∈ pre, Position.id q ≠ pid)
        ∧ WebState.positions (edit_position provider now st pid pd).2
            = pre ++ pos' :: post
        ∧ Position.id pos' = Position.id pos
        ∧ Position.date_added pos' = Position.date_added pos
        ∧ (pos' = pos
          ∨ (Position.description pos' = PositionData.description pd
            ∧ Position.ticker pos' = pyUpper (PositionData.ticker pd)
            ∧ Position.quantity pos' = PositionData.quantity pd
            ∧ Position.purchase_price pos' = PositionData.purchase_price pd
            ∧ Position.fees pos' = PositionData.fees pd))) := by
  have e : WebState.positions (edit_position provider now st pid pd).2
      = EditResult.positions (edit_position_aux provider now (WebState.cache st)
          pid pd (WebState.positions st)) := rfl
  rw [e]
  exact edit_position_aux_frame provider now (WebState.cache st) pid pd
    (WebState.positions st)
